import Mathlib

/-!
Verification of the acquisition-and-normalization pipeline of
`scripts/collect_data.py` (and the CSV loader of `scripts/process_data.py`).

The embedding models:
* scalar cell values as pandas sees them (`Val`), with `Val.vNull`
  standing for Python `None` / pandas `NaN`;
* a decoded JSON response (`ApiJson`) restricted to the fields the
  normalizers actually access (`Results.series[i].{seriesID, data}` and
  `observations`), with `Option` encoding an absent key and record rows
  as association lists of scalar values;
* `pd.DataFrame(list_of_records)` construction, column selection
  `df[required_fields]`, and `pd.to_numeric(..., errors="coerce")`;
* the retrying transport `fetch_data_from_api` over an abstract send
  oracle (one `Outcome` per attempt index), counting the send attempts
  performed and returning the payload object the caller's variable
  references after the call (Python mutates the dict in place);
* `df.to_csv(index=False)` text production and `pd.read_csv` parsing
  with column-wise dtype inference, for cell text free of the CSV
  delimiter, quote and newline characters (pandas would quote such
  fields; the round-trip theorems restrict to the unquoted domain).

Machine floats are modelled as exact decimals `mant / 10 ^ frac`; the
payload values exercised by the program (decimal literals of modest
size) round-trip exactly through float64, so decimal arithmetic is
faithful on this domain.
-/

/-- A scalar cell value. `vNull` models Python `None` / pandas `NaN`;
`vFloat mant frac` models the float `mant / 10 ^ frac`. -/
inductive Val where
  | vStr (s : String)
  | vInt (n : Int)
  | vFloat (mant : Int) (frac : Nat)
  | vBool (b : Bool)
  | vNull
deriving DecidableEq, Repr

/-- A JSON record (Python dict with scalar values), e.g. one per-period
data point of a BLS series or one FRED observation. -/
abbrev Row := List (String × Val)

/-- A pandas DataFrame: ordered column labels and positional rows. -/
structure Table where
  cols : List String
  rows : List (List Val)
deriving DecidableEq, Repr

/-- The Python exceptions the modelled code raises and documents. -/
inductive PyErr where
  | valueError (msg : String)
deriving DecidableEq, Repr

/-- Python `d.get(k)` on a dict represented as an association list. -/
def dictGet (k : String) : Row → Option Val
  | [] => none
  | p :: t => if p.1 = k then some p.2 else dictGet k t

/-- Python `k in d`. -/
def hasKey (r : Row) (k : String) : Bool :=
  (dictGet k r).isSome

/-- Python `d[k] = v`: overwrite in place (keeping the key's position)
or append a fresh key at the end, as dict assignment does. -/
def dictSet : Row → String → Val → Row
  | [], k, v => [(k, v)]
  | p :: t, k, v => if p.1 = k then (k, v) :: t else p :: dictSet t k v

/-- Keys of `r` not yet in `acc`, appended in order of appearance. -/
def addKeys (acc : List String) (r : Row) : List String :=
  r.foldl (fun a p => if p.1 ∈ a then a else a ++ [p.1]) acc

/-- Column labels of `pd.DataFrame(recs)`: union of the record keys in
order of first appearance. -/
def keyUnion (recs : List Row) : List String :=
  recs.foldl addKeys []

/-- One DataFrame row materialized from a record: a missing key
becomes `NaN`. -/
def rowOfRecord (cols : List String) (rec : Row) : List Val :=
  cols.map (fun c => (dictGet c rec).getD Val.vNull)

/-- `pd.DataFrame(recs)` for a list of records. -/
def dataFrameOfRecords (recs : List Row) : Table :=
  ⟨keyUnion recs, recs.map (rowOfRecord (keyUnion recs))⟩

/-- The cell of a positional row under the column label `f`
(first occurrence wins, as with pandas label lookup). -/
def cellLookup (cols : List String) (row : List Val) (f : String) : Val :=
  match cols, row with
  | [], _ => Val.vNull
  | _, [] => Val.vNull
  | c :: cs, v :: vs => if c = f then v else cellLookup cs vs f

/-- The column `df[f]` as a list of cells. -/
def getColVals (t : Table) (f : String) : List Val :=
  t.rows.map (fun r => cellLookup t.cols r f)

/-- `df[f] = vals`: replace the column `f` cell-by-cell. -/
def setColVals (t : Table) (f : String) (vals : List Val) : Table :=
  ⟨t.cols, (t.rows.zip vals).map
    (fun rv => List.zipWith (fun c old => if c = f then rv.2 else old) t.cols rv.1)⟩

/-- `df[required_fields]`: select exactly those columns in that order;
a missing label raises `KeyError`, which the callers' `except` blocks
convert into `ValueError structMsg`. -/
def project (t : Table) (rf : List String) (structMsg : String) : Except PyErr Table :=
  if rf.all (fun f => decide (f ∈ t.cols)) then
    .ok ⟨rf, t.rows.map (fun row => rf.map (fun f => cellLookup t.cols row f))⟩
  else .error (.valueError structMsg)

/-- `pd.DataFrame(columns=required_fields)`: zero rows, exact columns. -/
def emptyTable (rf : List String) : Table := ⟨rf, []⟩

/-- Digits of an unsigned decimal literal. -/
def isDigits (ds : List Char) : Bool :=
  !ds.isEmpty && ds.all (·.isDigit)

/-- Value of a digit string. -/
def natOfDigits (ds : List Char) : Nat :=
  ds.foldl (fun a c => 10 * a + (c.toNat - '0'.toNat)) 0

/-- Split a character list at every occurrence of `c`. -/
def splitChar (c : Char) : List Char → List (List Char)
  | [] => [[]]
  | x :: xs =>
    match splitChar c xs with
    | [] => [[]]
    | t :: ts => if x = c then [] :: t :: ts else (x :: t) :: ts

/-- Does `s` parse as an integer literal (optional minus sign)? -/
def isIntStr (s : String) : Bool :=
  match s.data with
  | '-' :: ds => isDigits ds
  | ds => isDigits ds

/-- Integer value of an integer literal. -/
def intOfStr (s : String) : Int :=
  match s.data with
  | '-' :: ds => -(natOfDigits ds : Int)
  | ds => (natOfDigits ds : Int)

/-- Does `s` parse as a decimal float literal `-`? digits `.` digits? -/
def isFloatStr (s : String) : Bool :=
  let core := match s.data with
    | '-' :: ds => ds
    | ds => ds
  match splitChar '.' core with
  | [ip, fp] => isDigits ip && isDigits fp
  | _ => false

/-- Drop trailing `'0'` characters of a fraction part. -/
def stripTrailingZeros (ds : List Char) : List Char :=
  (ds.reverse.dropWhile (· = '0')).reverse

/-- Mantissa/scale of a numeric literal, normalized so equal float64
values get equal representations (`"301.80"` and `"301.8"` agree). -/
def floatPairOfStr (s : String) : Int × Nat :=
  let sgn : Int := match s.data with
    | '-' :: _ => -1
    | _ => 1
  let core := match s.data with
    | '-' :: ds => ds
    | ds => ds
  match splitChar '.' core with
  | [ip, fp] =>
    let fp' := stripTrailingZeros fp
    (sgn * (natOfDigits (ip ++ fp') : Int), fp'.length)
  | _ => (sgn * (natOfDigits core : Int), 0)

/-- `pd.to_numeric(x, errors="coerce")` on one cell: numeric text
parses, booleans become 0/1, anything else coerces to `NaN`. -/
def toNumCell : Val → Val
  | .vStr s =>
    if isIntStr s then .vInt (intOfStr s)
    else if isFloatStr s then
      let p := floatPairOfStr s
      .vFloat p.1 p.2
    else .vNull
  | .vInt n => .vInt n
  | .vFloat m e => .vFloat m e
  | .vBool b => .vInt (if b then 1 else 0)
  | .vNull => .vNull

/-- Is the cell `NaN`/`None` (pandas `isnull`)? -/
def isNullV : Val → Bool
  | .vNull => true
  | _ => false

/-- Is the cell an integer? -/
def isIntV : Val → Bool
  | .vInt _ => true
  | _ => false

/-- `pd.to_numeric(series, errors="coerce")`: coerce every cell; the
result is an int64 column when every cell parsed as an integer, else a
float64 column (integers are promoted); any unparsable cell leaves a
`NaN` in place. -/
def coerceCol (cells : List Val) : List Val :=
  let c := cells.map toNumCell
  if c.any isNullV then c
  else if c.all isIntV then c
  else c.map (fun v => match v with
    | .vInt n => .vFloat n 0
    | x => x)

/-- One series object of a BLS/CES response: both keys may be absent. -/
structure SeriesObj where
  seriesID : Option String
  seriesData : Option (List Row)
deriving DecidableEq, Repr

/-- The value under the top-level `Results` key. -/
structure ResultsObj where
  series : Option (List SeriesObj)
deriving DecidableEq, Repr

/-- A decoded JSON response restricted to the keys the normalizers
access; `none` means the key is absent from the payload. -/
structure ApiJson where
  results : Option ResultsObj
  observations : Option (List Row)
deriving DecidableEq, Repr

/-- Shared tail of `process_bls_api_response` and
`process_fred_api_response` (lines 69-77 and 110-118 of
`collect_data.py`): build the DataFrame, coerce the `value` column if
present, raise `invalidMsg` when a null remains, and project onto the
required fields; a missing `value` column makes `df["value"]` raise
`KeyError`, converted to `ValueError structMsg` by the `except` block. -/
def numericFrame (recs : List Row) (rf : List String)
    (invalidMsg structMsg : String) : Except PyErr Table :=
  let df := dataFrameOfRecords recs
  if "value" ∈ df.cols then
    let newCol := coerceCol (getColVals df "value")
    if newCol.any isNullV then .error (.valueError invalidMsg)
    else project (setColVals df "value" newCol) rf structMsg
  else .error (.valueError structMsg)

/-- `process_bls_api_response` (collect_data.py lines 61-81):
`json_data.get("Results", {}).get("series")` falsy, or the first
series' `data` falsy, yields the empty table; otherwise coerce and
project. -/
def process_bls_api_response (j : ApiJson) (rf : List String) : Except PyErr Table :=
  match (match j.results with
         | none => none
         | some r => r.series) with
  | none => .ok (emptyTable rf)
  | some [] => .ok (emptyTable rf)
  | some (s0 :: _) =>
    match s0.seriesData with
    | none => .ok (emptyTable rf)
    | some [] => .ok (emptyTable rf)
    | some (d :: ds) =>
      numericFrame (d :: ds) rf
        "Invalid data type in BLS API response"
        "Unexpected BLS API response structure."

/-- `process_ces_api_response` (collect_data.py lines 83-100): indexing
`json_data['Results']['series']`, `series['seriesID']` and
`series['data']` raises `KeyError` when absent, converted to
`ValueError`; an empty series list returns the empty table; otherwise
the first series' id is stamped onto every record (no numeric
coercion) before projecting. -/
def process_ces_api_response (j : ApiJson) (rf : List String) : Except PyErr Table :=
  match j.results with
  | none => .error (.valueError "Unexpected CES API response structure.")
  | some r =>
    match r.series with
    | none => .error (.valueError "Unexpected CES API response structure.")
    | some [] => .ok (emptyTable rf)
    | some (s0 :: _) =>
      match s0.seriesID with
      | none => .error (.valueError "Unexpected CES API response structure.")
      | some sid =>
        match s0.seriesData with
        | none => .error (.valueError "Unexpected CES API response structure.")
        | some ds =>
          project (dataFrameOfRecords (ds.map (fun item => dictSet item "seriesID" (.vStr sid))))
            rf "Unexpected CES API response structure."

/-- `process_fred_api_response` (collect_data.py lines 102-122):
`json_data.get("observations")` falsy yields the empty table;
otherwise coerce the `value` column and project. -/
def process_fred_api_response (j : ApiJson) (rf : List String) : Except PyErr Table :=
  match j.observations with
  | none => .ok (emptyTable rf)
  | some [] => .ok (emptyTable rf)
  | some (d :: ds) =>
    numericFrame (d :: ds) rf
      "Invalid data type in FRED API response"
      "Unexpected FRED API response structure."

/-- What one send attempt observes: an HTTP response (status, decoded
JSON body, raw text) or a transport-level exception
(`requests.exceptions.RequestException`). -/
inductive Outcome where
  | response (status : Nat) (body : ApiJson) (text : String)
  | netError
deriving Repr

/-- How `fetch_data_from_api` terminates: return a decoded body, raise
(`ValueError` / `RuntimeError` message), or fall off the loop returning
`None` (only reachable with `max_retries = 0`). -/
inductive FetchResult where
  | ok (body : ApiJson)
  | raised (msg : String)
  | returnedNone
deriving DecidableEq, Repr

/-- Observable effect of one `fetch_data_from_api` call: its result,
how many send attempts (`requests.get`/`requests.post`) it performed,
and the payload object the caller's dict references afterwards (the
function mutates it in place when injecting the key). -/
structure FetchOut where
  result : FetchResult
  sends : Nat
  payloadAfter : Row
deriving Repr

/-- The `for attempt in range(max_retries)` loop of
`fetch_data_from_api` (collect_data.py lines 31-55), with `fuel`
iterations left; returns the result and the number of send attempts
performed. A status of exactly 200 returns the body at once; any other
status or a network exception retries while `attempt < max_retries - 1`
and raises the exhaustion message on the last attempt. The
`time.sleep(retry_delay)` between attempts has no modelled effect. -/
def retryLoop (send : Nat → Outcome) (maxRetries : Nat) :
    Nat → Nat → FetchResult × Nat
  | _, 0 => (.returnedNone, 0)
  | attempt, fuel + 1 =>
    match send attempt with
    | .response st body _ =>
      if st = 200 then (.ok body, 1)
      else if attempt < maxRetries - 1 then
        let r := retryLoop send maxRetries (attempt + 1) fuel
        (r.1, r.2 + 1)
      else
        (.raised ("API request failed after " ++ toString maxRetries ++
          " attempts with status code " ++ toString st), 1)
    | .netError =>
      if attempt < maxRetries - 1 then
        let r := retryLoop send maxRetries (attempt + 1) fuel
        (r.1, r.2 + 1)
      else
        (.raised ("API request failed after " ++ toString maxRetries ++
          " attempts due to network errors."), 1)

/-- `fetch_data_from_api` (collect_data.py lines 19-55). `env` is
`os.getenv`; a missing or empty credential raises before any send; a
payload containing `"registrationkey"` has the credential assigned
into it (in place) before the attempt loop runs. The HTTP method and
headers only select which `requests` call performs the send, which the
`send` oracle abstracts. -/
def fetch_data_from_api (env : String → Option String) (payload : Row)
    (api_key_env_var : String) (send : Nat → Outcome) (maxRetries : Nat) : FetchOut :=
  match env api_key_env_var with
  | none => ⟨.raised (api_key_env_var ++ " is not set! Check your .env file."), 0, payload⟩
  | some key =>
    if key = "" then
      ⟨.raised (api_key_env_var ++ " is not set! Check your .env file."), 0, payload⟩
    else
      let payload1 :=
        if hasKey payload "registrationkey" then dictSet payload "registrationkey" (.vStr key)
        else payload
      let r := retryLoop send maxRetries 0 maxRetries
      ⟨r.1, r.2, payload1⟩

/-- Join character-list tokens with a separator character. -/
def joinSep (c : Char) (toks : List (List Char)) : List Char :=
  (List.intersperse [c] toks).flatten

/-- The text `str(float)` / pandas `to_csv` prints for the exact
decimal `m / 10 ^ e`: a whole float prints with a trailing `.0`. -/
def renderFloat (m : Int) (e : Nat) : String :=
  if e = 0 then toString m ++ ".0"
  else
    let sign := if m < 0 then "-" else ""
    let ds := Nat.toDigits 10 m.natAbs
    let ds := if ds.length < e + 1 then List.replicate (e + 1 - ds.length) '0' ++ ds else ds
    sign ++ String.mk (ds.take (ds.length - e)) ++ "." ++ String.mk (ds.drop (ds.length - e))

/-- The text one cell contributes to a CSV field: `str(x)` with `NaN`
printed as the empty field, as `df.to_csv` does. -/
def renderCell : Val → String
  | .vStr s => s
  | .vInt n => toString n
  | .vFloat m e => renderFloat m e
  | .vBool b => if b then "True" else "False"
  | .vNull => ""

/-- `save_data_to_csv` (collect_data.py lines 128-134): the file text
`df.to_csv(output_path, index=False)` writes — a header line of the
column labels, then one comma-separated line per row, each terminated
by a newline. (Directory creation and the absolute-path rewrite touch
only the filesystem, not the written bytes.) -/
def save_data_to_csv (t : Table) : String :=
  String.mk (joinSep '\n'
      ((joinSep ',' (t.cols.map String.data)) ::
        t.rows.map (fun r => joinSep ',' (r.map (fun v => (renderCell v).data))))
    ++ ['\n'])

/-- `pd.read_csv` column dtype inference, column-wise over the raw
fields: an empty field is `NaN`; a column whose non-empty fields are
all integer literals becomes int64; all numeric becomes float64; all
`True`/`False` becomes bool; anything else stays text. -/
def inferColumn (fields : List String) : List Val :=
  let nn := fields.filter (fun f => f ≠ "")
  if nn.isEmpty then fields.map (fun _ => Val.vNull)
  else if nn.all isIntStr then
    fields.map (fun f => if f = "" then Val.vNull else Val.vInt (intOfStr f))
  else if nn.all (fun f => isIntStr f || isFloatStr f) then
    fields.map (fun f =>
      if f = "" then Val.vNull
      else if isIntStr f then Val.vFloat (intOfStr f) 0
      else Val.vFloat (floatPairOfStr f).1 (floatPairOfStr f).2)
  else if nn.all (fun f => f = "True" || f = "False") then
    fields.map (fun f => if f = "" then Val.vNull else Val.vBool (f = "True"))
  else
    fields.map (fun f => if f = "" then Val.vNull else Val.vStr f)

/-- `load_data` (process_data.py lines 13-30) applied to the text of
the file at `path`: parse with `pd.read_csv` — skip blank lines, first
line is the header, short rows are padded with `NaN`, a row with more
fields than the header is a `ParserError` (re-raised as `ValueError`),
column dtypes are inferred — then raise `ValueError` if the resulting
frame is empty. A file with no lines at all is an `EmptyDataError`,
re-raised as `ValueError`. -/
def load_data (path : String) (content : String) : Except PyErr Table :=
  let lines := (splitChar '\n' content.data).filter (fun l => !l.isEmpty)
  match lines with
  | [] => .error (.valueError (path ++ " is empty or has no columns."))
  | header :: dataLines =>
    let cols := (splitChar ',' header).map String.mk
    let rawRows := dataLines.map (fun l => (splitChar ',' l).map String.mk)
    if rawRows.any (fun r => cols.length < r.length) then
      .error (.valueError ("Parsing error in " ++ path))
    else
      let n := cols.length
      let padded := rawRows.map (fun r => (List.range n).map (fun j => r.getD j ""))
      let colVals := (List.range n).map (fun j => inferColumn (padded.map (fun r => r.getD j "")))
      let rows := (List.range padded.length).map (fun i => colVals.map (fun cv => cv.getD i Val.vNull))
      if rows.isEmpty then .error (.valueError (path ++ " is empty."))
      else .ok ⟨cols, rows⟩

/-! ### Helper lemmas about the embedding -/

theorem project_ok_cols {t : Table} {rf : List String} {msg : String} {u : Table}
    (h : project t rf msg = .ok u) : u.cols = rf := by
  unfold project at h
  split at h
  · cases h
    rfl
  · simp at h

theorem project_ok_all_mem {t : Table} {rf : List String} {msg : String} {u : Table}
    (h : project t rf msg = .ok u) : ∀ f ∈ rf, f ∈ t.cols := by
  unfold project at h
  split at h
  · rename_i hall
    intro f hf
    simpa using List.all_eq_true.mp hall f hf
  · simp at h

theorem project_ok_rows {t : Table} {rf : List String} {msg : String} {u : Table}
    (h : project t rf msg = .ok u) :
    u.rows = t.rows.map (fun row => rf.map (fun f => cellLookup t.cols row f)) := by
  unfold project at h
  split at h
  · cases h
    rfl
  · simp at h

theorem numericFrame_ok_cols {recs : List Row} {rf : List String} {m1 m2 : String} {t : Table}
    (h : numericFrame recs rf m1 m2 = .ok t) : t.cols = rf := by
  simp only [numericFrame] at h
  split at h
  · split at h
    · simp at h
    · exact project_ok_cols h
  · simp at h

theorem cellLookup_map {f : String} {g : String → Val} :
    ∀ {cols : List String}, f ∈ cols → cellLookup cols (cols.map g) f = g f := by
  intro cols
  induction cols with
  | nil => intro h; cases h
  | cons c cs ih =>
    intro h
    simp only [List.map_cons, cellLookup]
    by_cases hc : c = f
    · subst hc
      simp
    · rw [if_neg hc]
      rcases List.mem_cons.mp h with h1 | h1
      · exact absurd h1.symm hc
      · exact ih h1

theorem dictGet_dictSet_self (r : Row) (k : String) (v : Val) :
    dictGet k (dictSet r k v) = some v := by
  induction r with
  | nil => simp [dictSet, dictGet]
  | cons p t ih =>
    by_cases hp : p.1 = k
    · simp [dictSet, hp, dictGet]
    · simp [dictSet, hp, dictGet, ih]

theorem dictGet_dictSet_ne (r : Row) {k k' : String} (v : Val) (hne : k' ≠ k) :
    dictGet k (dictSet r k' v) = dictGet k r := by
  induction r with
  | nil => simp [dictSet, dictGet, hne]
  | cons p t ih =>
    by_cases hp : p.1 = k'
    · simp [dictSet, hp, dictGet, hne, ih]
    · simp only [dictSet, hp, if_false, dictGet]
      by_cases hk : p.1 = k
      · simp [hk]
      · simp [hk, ih]

/-! ### C1 -/

/-- C1: for every provider normalizer (BLS, CES, FRED) and every
successfully normalized response, the returned table's columns equal
the caller-supplied `required_fields` exactly and in the same order,
including in the zero-row case. -/
theorem c1_normalizer_columns_exact (j : ApiJson) (rf : List String) (t : Table) :
    (process_bls_api_response j rf = .ok t → t.cols = rf) ∧
    (process_ces_api_response j rf = .ok t → t.cols = rf) ∧
    (process_fred_api_response j rf = .ok t → t.cols = rf) := by
  refine ⟨?_, ?_, ?_⟩
  · intro h
    rcases hres : j.results with _ | r
    · simp only [process_bls_api_response, hres] at h
      cases h; rfl
    · rcases hser : r.series with _ | ls
      · simp only [process_bls_api_response, hres, hser] at h
        cases h; rfl
      · rcases ls with _ | ⟨s0, ss⟩
        · simp only [process_bls_api_response, hres, hser] at h
          cases h; rfl
        · rcases hdat : s0.seriesData with _ | ds
          · simp only [process_bls_api_response, hres, hser, hdat] at h
            cases h; rfl
          · rcases ds with _ | ⟨d, ds'⟩
            · simp only [process_bls_api_response, hres, hser, hdat] at h
              cases h; rfl
            · simp only [process_bls_api_response, hres, hser, hdat] at h
              exact numericFrame_ok_cols h
  · intro h
    rcases hres : j.results with _ | r
    · simp only [process_ces_api_response, hres] at h
      exact Except.noConfusion h
    · rcases hser : r.series with _ | ls
      · simp only [process_ces_api_response, hres, hser] at h
        exact Except.noConfusion h
      · rcases ls with _ | ⟨s0, ss⟩
        · simp only [process_ces_api_response, hres, hser] at h
          cases h; rfl
        · rcases hsid : s0.seriesID with _ | sid
          · simp only [process_ces_api_response, hres, hser, hsid] at h
            exact Except.noConfusion h
          · rcases hdat : s0.seriesData with _ | ds
            · simp only [process_ces_api_response, hres, hser, hsid, hdat] at h
              exact Except.noConfusion h
            · simp only [process_ces_api_response, hres, hser, hsid, hdat] at h
              exact project_ok_cols h
  · intro h
    rcases hobs : j.observations with _ | l
    · simp only [process_fred_api_response, hobs] at h
      cases h; rfl
    · rcases l with _ | ⟨d, ds⟩
      · simp only [process_fred_api_response, hobs] at h
        cases h; rfl
      · simp only [process_fred_api_response, hobs] at h
        exact numericFrame_ok_cols h

/-- The mocked BLS response of the repository's test suite
(`SAMPLE_BLS_API_RESPONSE`). -/
def blsSample : ApiJson :=
  ⟨some ⟨some [⟨none, some [
      [("year", .vStr "2024"), ("periodName", .vStr "January"), ("value", .vStr "301.8")],
      [("year", .vStr "2024"), ("periodName", .vStr "February"), ("value", .vStr "303.1")]]⟩]⟩,
   none⟩

/-- The table `process_bls_api_response` produces from `blsSample`. -/
def blsTable : Table :=
  ⟨["year", "periodName", "value"],
   [[.vStr "2024", .vStr "January", .vFloat 3018 1],
    [.vStr "2024", .vStr "February", .vFloat 3031 1]]⟩

theorem c1_normalizer_columns_exact_witness :
    process_bls_api_response blsSample ["year", "periodName", "value"] = .ok blsTable ∧
    blsTable.cols = ["year", "periodName", "value"] :=
  ⟨rfl,
   (c1_normalizer_columns_exact blsSample ["year", "periodName", "value"] blsTable).1 rfl⟩

/-! ### C3 -/

/-- C3 counterexample: a BLS payload with no top-level keys at all does
NOT fail with a structure error — `process_bls_api_response` returns a
zero-row table (the repository's own test
`test_process_bls_api_response_invalid_format` asserts exactly this). -/
theorem c3_counterexample :
    process_bls_api_response ⟨none, none⟩ ["year", "periodName", "value"] =
      .ok ⟨["year", "periodName", "value"], []⟩ := rfl

/-- C3 amended: only the CES normalizer fails on absent top-level keys
(with `ValueError "Unexpected CES API response structure."`); the BLS
and FRED normalizers treat an absent `Results`/`series`/`observations`
key as empty data and return a zero-row table with exactly the
required fields. -/
theorem c3_amended_only_ces_structure_error (rf : List String)
    (obs : Option (List Row)) (res : Option ResultsObj) :
    process_bls_api_response ⟨none, obs⟩ rf = .ok ⟨rf, []⟩ ∧
    process_fred_api_response ⟨res, none⟩ rf = .ok ⟨rf, []⟩ ∧
    process_ces_api_response ⟨none, obs⟩ rf =
      .error (.valueError "Unexpected CES API response structure.") ∧
    process_ces_api_response ⟨some ⟨none⟩, obs⟩ rf =
      .error (.valueError "Unexpected CES API response structure.") :=
  ⟨rfl, rfl, rfl, rfl⟩

/-! ### C5 -/

/-- C5: an empty `series` list (BLS, CES), an empty first-series `data`
list (BLS), or an empty `observations` list (FRED) yields a zero-row
table whose columns are exactly `required_fields`; no error value is
produced. -/
theorem c5_empty_list_zero_row_table (rf : List String) (obs : Option (List Row))
    (res : Option ResultsObj) (ss : List SeriesObj) (sid : Option String) :
    process_bls_api_response ⟨some ⟨some []⟩, obs⟩ rf = .ok ⟨rf, []⟩ ∧
    process_ces_api_response ⟨some ⟨some []⟩, obs⟩ rf = .ok ⟨rf, []⟩ ∧
    process_fred_api_response ⟨res, some []⟩ rf = .ok ⟨rf, []⟩ ∧
    process_bls_api_response ⟨some ⟨some (⟨sid, some []⟩ :: ss)⟩, obs⟩ rf = .ok ⟨rf, []⟩ :=
  ⟨rfl, rfl, rfl, rfl⟩

/-! ### C2 -/

/-- The columns `df[f]` of `pd.DataFrame(recs)` hold exactly the raw
record values (with `NaN` for a missing key). -/
theorem getColVals_dataFrame (recs : List Row) (f : String) (hf : f ∈ keyUnion recs) :
    getColVals (dataFrameOfRecords recs) f =
      recs.map (fun rec => (dictGet f rec).getD Val.vNull) := by
  unfold getColVals dataFrameOfRecords
  simp only [List.map_map]
  apply List.map_congr_left
  intro rec _
  simp only [Function.comp]
  unfold rowOfRecord
  exact cellLookup_map hf

/-- A FRED payload with a non-numeric `value` cell produces an error. -/
theorem c2_counterexample :
    process_fred_api_response
        ⟨none, some [[("date", .vStr "2020-01-01"), ("value", .vStr "abc")]]⟩
        ["date", "value"] =
      .error (.valueError "Invalid data type in FRED API response") := rfl

/-- C2 amended: normalizing a FRED payload whose (non-empty)
observations list contains a record with a non-numeric `value` does
not succeed with a null cell — `pd.to_numeric(errors="coerce")` turns
it into `NaN` and the normalizer then raises
`ValueError "Invalid data type in FRED API response"`. -/
theorem c2_amended_fred_nonnumeric_raises (j : ApiJson) (l : List Row) (rf : List String)
    (hobs : j.observations = some l) (hne : l ≠ [])
    (hcol : "value" ∈ keyUnion l)
    (hbad : ∃ rec ∈ l, toNumCell ((dictGet "value" rec).getD Val.vNull) = Val.vNull) :
    process_fred_api_response j rf =
      .error (.valueError "Invalid data type in FRED API response") := by
  rcases l with _ | ⟨d, ds⟩
  · exact absurd rfl hne
  · simp only [process_fred_api_response, hobs]
    simp only [numericFrame]
    have hcol' : "value" ∈ (dataFrameOfRecords (d :: ds)).cols := hcol
    rw [if_pos hcol', getColVals_dataFrame (d :: ds) "value" hcol]
    have hany :
        (((d :: ds).map (fun rec => (dictGet "value" rec).getD Val.vNull)).map toNumCell).any
          isNullV = true := by
      obtain ⟨rec, hmem, hnull⟩ := hbad
      apply List.any_eq_true.mpr
      refine ⟨toNumCell ((dictGet "value" rec).getD Val.vNull), ?_, by rw [hnull]; rfl⟩
      exact List.mem_map.mpr ⟨(dictGet "value" rec).getD Val.vNull,
        List.mem_map.mpr ⟨rec, hmem, rfl⟩, rfl⟩
    simp only [coerceCol]
    rw [if_pos hany, if_pos hany]

theorem c2_amended_witness :
    process_fred_api_response
        ⟨none, some [[("date", .vStr "2020-01-01"), ("value", .vStr "abc")]]⟩
        ["date", "value"] =
      .error (.valueError "Invalid data type in FRED API response") :=
  c2_amended_fred_nonnumeric_raises _ _ _ rfl (by decide) (by decide)
    ⟨[("date", .vStr "2020-01-01"), ("value", .vStr "abc")], by decide, by decide⟩

/-! ### C10 -/

/-- C10: the CES normalizer performs no numeric coercion — a
successfully normalized CES response carries each record's raw `value`
verbatim in its row — and the first series' `seriesID` is stamped onto
every row. -/
theorem c10_ces_verbatim_and_stamped (j : ApiJson) (rf : List String) (t : Table)
    (s0 : SeriesObj) (ss : List SeriesObj) (sid : String) (ds : List Row)
    (hres : j.results = some ⟨some (s0 :: ss)⟩)
    (hsid : s0.seriesID = some sid) (hdat : s0.seriesData = some ds)
    (hok : process_ces_api_response j rf = .ok t) :
    t.rows.length = ds.length ∧
    ∀ (i k : Nat) (row : List Val) (rec : Row) (f : String),
      t.rows[i]? = some row → ds[i]? = some rec → rf[k]? = some f →
      (f = "value" → row[k]? = some ((dictGet "value" rec).getD Val.vNull)) ∧
      (f = "seriesID" → row[k]? = some (Val.vStr sid)) := by
  simp only [process_ces_api_response, hres, hsid, hdat] at hok
  have hmem := project_ok_all_mem hok
  have hrows := project_ok_rows hok
  constructor
  · rw [hrows]
    simp [dataFrameOfRecords]
  · intro i k row rec f hrow hrec hf
    have hfrf : f ∈ rf := List.getElem?_mem hf
    have hfcols :
        f ∈ (dataFrameOfRecords (List.map (fun item => dictSet item "seriesID" (.vStr sid)) ds)).cols :=
      hmem f hfrf
    rw [hrows] at hrow
    simp only [dataFrameOfRecords, List.map_map, List.getElem?_map, hrec,
      Option.map_some', Option.some.injEq, Function.comp] at hrow
    have hcell : row[k]? =
        some (cellLookup (keyUnion (List.map (fun item => dictSet item "seriesID" (.vStr sid)) ds))
          (rowOfRecord (keyUnion (List.map (fun item => dictSet item "seriesID" (.vStr sid)) ds))
            (dictSet rec "seriesID" (.vStr sid))) f) := by
      rw [← hrow, List.getElem?_map, hf]
      rfl
    have hlook :
        cellLookup (keyUnion (List.map (fun item => dictSet item "seriesID" (.vStr sid)) ds))
          (rowOfRecord (keyUnion (List.map (fun item => dictSet item "seriesID" (.vStr sid)) ds))
            (dictSet rec "seriesID" (.vStr sid))) f =
        (dictGet f (dictSet rec "seriesID" (.vStr sid))).getD Val.vNull := by
      unfold rowOfRecord
      exact cellLookup_map hfcols
    constructor
    · intro hv
      subst hv
      rw [hcell, hlook, dictGet_dictSet_ne rec (.vStr sid) (by decide)]
    · intro hv
      subst hv
      rw [hcell, hlook, dictGet_dictSet_self]
      rfl

/-- The mocked CES response of the repository's test suite
(`SAMPLE_CES_API_RESPONSE`, scalar fields). -/
def cesSample : ApiJson :=
  ⟨some ⟨some [⟨some "CES0000000001", some [
      [("year", .vStr "2024"), ("period", .vStr "M12"),
       ("periodName", .vStr "December"), ("value", .vStr "158942")]]⟩]⟩,
   none⟩

/-- The table `process_ces_api_response` produces from `cesSample`. -/
def cesTable : Table :=
  ⟨["seriesID", "year", "periodName", "value"],
   [[.vStr "CES0000000001", .vStr "2024", .vStr "December", .vStr "158942"]]⟩

theorem c10_ces_verbatim_and_stamped_witness :
    process_ces_api_response cesSample ["seriesID", "year", "periodName", "value"] =
      .ok cesTable ∧
    cesTable.rows[0]?.bind (fun r => r[3]?) = some (Val.vStr "158942") ∧
    cesTable.rows[0]?.bind (fun r => r[0]?) = some (Val.vStr "CES0000000001") := by
  have h := c10_ces_verbatim_and_stamped cesSample
    ["seriesID", "year", "periodName", "value"] cesTable
    ⟨some "CES0000000001", some [
      [("year", .vStr "2024"), ("period", .vStr "M12"),
       ("periodName", .vStr "December"), ("value", .vStr "158942")]]⟩
    [] "CES0000000001"
    [[("year", .vStr "2024"), ("period", .vStr "M12"),
      ("periodName", .vStr "December"), ("value", .vStr "158942")]]
    rfl rfl rfl rfl
  refine ⟨rfl, ?_, ?_⟩
  · have hv := (h.2 0 3 [.vStr "CES0000000001", .vStr "2024", .vStr "December", .vStr "158942"]
      [("year", .vStr "2024"), ("period", .vStr "M12"),
       ("periodName", .vStr "December"), ("value", .vStr "158942")]
      "value" rfl rfl rfl).1 rfl
    exact hv
  · have hs := (h.2 0 0 [.vStr "CES0000000001", .vStr "2024", .vStr "December", .vStr "158942"]
      [("year", .vStr "2024"), ("period", .vStr "M12"),
       ("periodName", .vStr "December"), ("value", .vStr "158942")]
      "seriesID" rfl rfl rfl).2 rfl
    exact hs

/-! ### C6 -/

/-- C6: when the named credential environment variable is unset,
`fetch_data_from_api` raises at once with the "not set" message, the
send oracle is never invoked (zero send attempts, hence nothing to
retry), and the caller's payload is untouched. -/
theorem c6_missing_credential_no_send (env : String → Option String) (v : String)
    (payload : Row) (send : Nat → Outcome) (maxRetries : Nat)
    (henv : env v = none) :
    fetch_data_from_api env payload v send maxRetries =
      ⟨.raised (v ++ " is not set! Check your .env file."), 0, payload⟩ := by
  simp only [fetch_data_from_api, henv]

theorem c6_missing_credential_no_send_witness :
    fetch_data_from_api (fun _ => none) [("seriesid", .vStr "CUUR0000SA0")] "BLS_API_KEY"
        (fun _ => .netError) 3 =
      ⟨.raised "BLS_API_KEY is not set! Check your .env file.", 0,
       [("seriesid", .vStr "CUUR0000SA0")]⟩ :=
  c6_missing_credential_no_send (fun _ => none) "BLS_API_KEY"
    [("seriesid", .vStr "CUUR0000SA0")] (fun _ => .netError) 3 rfl

/-! ### C4 -/

/-- C4: with a credential present and a transport that answers status
500 on every attempt, a call with `max_retries = 3` performs exactly 3
send attempts (no fourth) and raises the message naming "3 attempts"
and the last status "500". -/
theorem c4_exhaustion_three_attempts (env : String → Option String) (v key : String)
    (payload : Row) (send : Nat → Outcome)
    (henv : env v = some key) (hkey : key ≠ "")
    (h500 : ∀ n, ∃ b t, send n = .response 500 b t) :
    (fetch_data_from_api env payload v send 3).result =
      .raised "API request failed after 3 attempts with status code 500" ∧
    (fetch_data_from_api env payload v send 3).sends = 3 := by
  obtain ⟨b0, t0, h0⟩ := h500 0
  obtain ⟨b1, t1, h1⟩ := h500 1
  obtain ⟨b2, t2, h2⟩ := h500 2
  have hloop : retryLoop send 3 0 3 =
      (.raised "API request failed after 3 attempts with status code 500", 3) := by
    simp only [retryLoop, h0, h1, h2]
    norm_num
    rfl
  simp only [fetch_data_from_api, henv, if_neg hkey]
  rw [hloop]
  exact ⟨rfl, rfl⟩

theorem c4_exhaustion_three_attempts_witness :
    (fetch_data_from_api (fun _ => some "testkey") [] "BLS_API_KEY"
        (fun _ => .response 500 ⟨none, none⟩ "Internal Server Error") 3).result =
      .raised "API request failed after 3 attempts with status code 500" ∧
    (fetch_data_from_api (fun _ => some "testkey") [] "BLS_API_KEY"
        (fun _ => .response 500 ⟨none, none⟩ "Internal Server Error") 3).sends = 3 :=
  c4_exhaustion_three_attempts (fun _ => some "testkey") "BLS_API_KEY" "testkey" []
    (fun _ => .response 500 ⟨none, none⟩ "Internal Server Error") rfl (by decide)
    (fun _ => ⟨⟨none, none⟩, "Internal Server Error", rfl⟩)

/-! ### C7 -/

/-- The environment used by the concrete transport scenarios: only the
BLS key is set. -/
def envBls : String → Option String :=
  fun s => if s = "BLS_API_KEY" then some "SECRET" else none

/-- A caller's payload template that carries a `registrationkey` slot. -/
def payloadWithRegKey : Row :=
  [("registrationkey", .vStr ""), ("seriesid", .vStr "CUUR0000SA0")]

/-- C7 counterexample: the credential is not inserted into a copy — a
payload containing `registrationkey` is mutated in place, so the
caller's template differs after the call. -/
theorem c7_counterexample :
    (fetch_data_from_api envBls payloadWithRegKey "BLS_API_KEY"
        (fun _ => .netError) 3).payloadAfter ≠ payloadWithRegKey := by
  intro h
  have := congrArg (fun r => dictGet "registrationkey" r) h
  simp [fetch_data_from_api, envBls, payloadWithRegKey, hasKey, dictSet, dictGet] at this

/-- C7 amended: `fetch_data_from_api` writes the resolved credential
into the caller's payload mapping in place whenever the payload
contains a `registrationkey` field (so the template observably changes
unless it already held the credential); a payload without that field
passes through unmodified. -/
theorem c7_amended_payload_mutation (env : String → Option String) (v key : String)
    (payload : Row) (send : Nat → Outcome) (maxRetries : Nat)
    (henv : env v = some key) (hkey : key ≠ "") :
    (hasKey payload "registrationkey" = false →
      (fetch_data_from_api env payload v send maxRetries).payloadAfter = payload) ∧
    (hasKey payload "registrationkey" = true →
      dictGet "registrationkey" payload ≠ some (.vStr key) →
      (fetch_data_from_api env payload v send maxRetries).payloadAfter ≠ payload) := by
  constructor
  · intro hno
    simp only [fetch_data_from_api, henv, if_neg hkey, hno]
    rfl
  · intro hyes hdiff
    simp only [fetch_data_from_api, henv, if_neg hkey, hyes]
    intro h
    simp only [if_true] at h
    apply hdiff
    rw [← h]
    exact dictGet_dictSet_self payload "registrationkey" (.vStr key)

theorem c7_amended_payload_mutation_witness :
    (fetch_data_from_api envBls [("seriesid", .vStr "CUUR0000SA0")] "BLS_API_KEY"
        (fun _ => .netError) 3).payloadAfter = [("seriesid", .vStr "CUUR0000SA0")] ∧
    (fetch_data_from_api envBls payloadWithRegKey "BLS_API_KEY"
        (fun _ => .netError) 3).payloadAfter ≠ payloadWithRegKey :=
  ⟨(c7_amended_payload_mutation envBls "BLS_API_KEY" "SECRET"
      [("seriesid", .vStr "CUUR0000SA0")] (fun _ => .netError) 3 rfl (by decide)).1 (by decide),
   (c7_amended_payload_mutation envBls "BLS_API_KEY" "SECRET"
      payloadWithRegKey (fun _ => .netError) 3 rfl (by decide)).2 (by decide) (by decide)⟩

/-! ### C8 -/

/-- C8 counterexample: a response with the 2xx status 201 on every
attempt is NOT returned — the transport retries it like a failure and
raises after 3 attempts (the code tests `status_code == 200` exactly). -/
theorem c8_counterexample :
    (fetch_data_from_api envBls [] "BLS_API_KEY"
        (fun _ => .response 201 ⟨none, none⟩ "Created") 3).result =
      .raised "API request failed after 3 attempts with status code 201" ∧
    (fetch_data_from_api envBls [] "BLS_API_KEY"
        (fun _ => .response 201 ⟨none, none⟩ "Created") 3).sends = 3 :=
  ⟨rfl, rfl⟩

/-- A failed attempt: a non-200 status or a transport exception. -/
def isFailO (o : Outcome) : Prop :=
  o = .netError ∨ ∃ st b t, o = .response st b t ∧ st ≠ 200

theorem retryLoop_success (send : Nat → Outcome) (maxRetries : Nat)
    (body : ApiJson) (txt : String) :
    ∀ (k attempt : Nat), attempt + k < maxRetries →
      (∀ i, i < k → isFailO (send (attempt + i))) →
      send (attempt + k) = .response 200 body txt →
      retryLoop send maxRetries attempt (maxRetries - attempt) = (.ok body, k + 1) := by
  intro k
  induction k with
  | zero =>
    intro attempt hlt _ hsucc
    have hfuel : maxRetries - attempt = (maxRetries - attempt - 1) + 1 := by omega
    rw [hfuel]
    simp only [retryLoop]
    rw [Nat.add_zero] at hsucc
    rw [hsucc]
    simp
  | succ k ih =>
    intro attempt hlt hfail hsucc
    have hfuel : maxRetries - attempt = (maxRetries - (attempt + 1)) + 1 := by omega
    rw [hfuel]
    have hnotlast : attempt < maxRetries - 1 := by omega
    have hrec := ih (attempt + 1) (by omega)
      (fun i hi => by
        have := hfail (i + 1) (by omega)
        rwa [show attempt + (i + 1) = attempt + 1 + i by omega] at this)
      (by rwa [show attempt + 1 + k = attempt + (k + 1) by omega])
    rcases hfail 0 (by omega) with hnet | ⟨st, b, t, hresp, hst⟩
    · rw [Nat.add_zero] at hnet
      simp only [retryLoop, hnet, if_pos hnotlast, hrec]
    · rw [Nat.add_zero] at hresp
      simp only [retryLoop, hresp, if_neg hst, if_pos hnotlast, hrec]

/-- C8 amended: only a response with status exactly 200 is returned on
the attempt that observed it (with the decoded body, and no further
send attempts); every other status — including the other 2xx codes —
counts as a failed attempt and is retried. -/
theorem c8_amended_only_200_returns (env : String → Option String) (v key : String)
    (payload : Row) (send : Nat → Outcome) (k maxRetries : Nat)
    (body : ApiJson) (txt : String)
    (henv : env v = some key) (hkey : key ≠ "") (hlt : k < maxRetries)
    (hfail : ∀ i, i < k → isFailO (send i))
    (hsucc : send k = .response 200 body txt) :
    (fetch_data_from_api env payload v send maxRetries).result = .ok body ∧
    (fetch_data_from_api env payload v send maxRetries).sends = k + 1 := by
  have hloop := retryLoop_success send maxRetries body txt k 0 (by omega)
    (fun i hi => by simpa using hfail i hi) (by simpa using hsucc)
  rw [Nat.sub_zero] at hloop
  simp only [fetch_data_from_api, henv, if_neg hkey]
  rw [hloop]
  exact ⟨rfl, rfl⟩

theorem c8_amended_only_200_returns_witness :
    (fetch_data_from_api envBls [] "BLS_API_KEY"
        (fun i => if i = 0 then .response 500 ⟨none, none⟩ "err"
                  else .response 200 ⟨none, none⟩ "ok") 3).result = .ok ⟨none, none⟩ ∧
    (fetch_data_from_api envBls [] "BLS_API_KEY"
        (fun i => if i = 0 then .response 500 ⟨none, none⟩ "err"
                  else .response 200 ⟨none, none⟩ "ok") 3).sends = 2 :=
  c8_amended_only_200_returns envBls "BLS_API_KEY" "SECRET" []
    (fun i => if i = 0 then .response 500 ⟨none, none⟩ "err"
              else .response 200 ⟨none, none⟩ "ok") 1 3 ⟨none, none⟩ "ok"
    rfl (by decide) (by omega)
    (fun i hi => by
      have hi0 : i = 0 := by omega
      subst hi0
      exact Or.inr ⟨500, ⟨none, none⟩, "err", rfl, by decide⟩)
    rfl

/-! ### C9: CSV text lemmas -/

theorem stringMkData (s : String) : String.mk s.data = s := rfl

theorem splitChar_ne_nil (c : Char) (l : List Char) : splitChar c l ≠ [] := by
  cases l with
  | nil => simp [splitChar]
  | cons x xs =>
    simp only [splitChar]
    cases hs : splitChar c xs with
    | nil => simp
    | cons t ts =>
      by_cases hx : x = c <;> simp [hx]

theorem splitChar_of_not_mem {c : Char} {tok : List Char} (h : c ∉ tok) :
    splitChar c tok = [tok] := by
  induction tok with
  | nil => rfl
  | cons x xs ih =>
    have hx : x ≠ c := fun hx => h (hx ▸ List.mem_cons_self x xs)
    have hxs : c ∉ xs := fun hm => h (List.mem_cons_of_mem x hm)
    simp only [splitChar, ih hxs]
    rw [if_neg hx]

theorem splitChar_append_cons {c : Char} {tok rest : List Char} (h : c ∉ tok) :
    splitChar c (tok ++ c :: rest) = tok :: splitChar c rest := by
  induction tok with
  | nil =>
    simp only [List.nil_append, splitChar]
    cases hs : splitChar c rest with
    | nil => exact absurd hs (splitChar_ne_nil c rest)
    | cons t ts => simp
  | cons x xs ih =>
    have hx : x ≠ c := fun hx => h (hx ▸ List.mem_cons_self x xs)
    have hxs : c ∉ xs := fun hm => h (List.mem_cons_of_mem x hm)
    show splitChar c (x :: (xs ++ c :: rest)) = (x :: xs) :: splitChar c rest
    simp only [splitChar]
    rw [ih hxs]
    simp [hx]

theorem joinSep_single (c : Char) (t : List Char) : joinSep c [t] = t := by
  simp [joinSep]

theorem joinSep_cons₂ (c : Char) (t t' : List Char) (ts : List (List Char)) :
    joinSep c (t :: t' :: ts) = t ++ c :: joinSep c (t' :: ts) := by
  simp [joinSep, List.intersperse]

theorem not_mem_joinSep {x c : Char} {toks : List (List Char)} (hxc : x ≠ c)
    (h : ∀ tok ∈ toks, x ∉ tok) : x ∉ joinSep c toks := by
  induction toks with
  | nil => simp [joinSep]
  | cons t ts ih =>
    cases ts with
    | nil => simpa [joinSep_single] using h t (by simp)
    | cons t' ts' =>
      rw [joinSep_cons₂]
      intro hmem
      rcases List.mem_append.mp hmem with hm | hm
      · exact h t (by simp) hm
      · rcases List.mem_cons.mp hm with hm1 | hm1
        · exact hxc hm1
        · exact ih (fun tok htok => h tok (List.mem_cons_of_mem _ htok)) hm1

theorem joinSep_ne_nil {c : Char} {toks : List (List Char)} (hne : toks ≠ [])
    (hall : ∀ tok ∈ toks, tok ≠ []) : joinSep c toks ≠ [] := by
  cases toks with
  | nil => exact absurd rfl hne
  | cons t ts =>
    cases ts with
    | nil => simpa [joinSep_single] using hall t (by simp)
    | cons t' ts' =>
      rw [joinSep_cons₂]
      intro h
      rcases List.append_eq_nil.mp h with ⟨h1, h2⟩
      exact List.noConfusion h2

theorem splitChar_joinSep {c : Char} {toks : List (List Char)} (hne : toks ≠ [])
    (h : ∀ tok ∈ toks, c ∉ tok) :
    splitChar c (joinSep c toks) = toks := by
  induction toks with
  | nil => exact absurd rfl hne
  | cons t ts ih =>
    cases ts with
    | nil =>
      rw [joinSep_single]
      exact splitChar_of_not_mem (h t (by simp))
    | cons t' ts' =>
      rw [joinSep_cons₂, splitChar_append_cons (h t (by simp))]
      rw [ih (by simp) (fun tok htok => h tok (List.mem_cons_of_mem _ htok))]

theorem splitChar_joinSep_term {c : Char} {toks : List (List Char)} (hne : toks ≠ [])
    (h : ∀ tok ∈ toks, c ∉ tok) :
    splitChar c (joinSep c toks ++ [c]) = toks ++ [[]] := by
  induction toks with
  | nil => exact absurd rfl hne
  | cons t ts ih =>
    cases ts with
    | nil =>
      rw [joinSep_single, splitChar_append_cons (h t (by simp))]
      rfl
    | cons t' ts' =>
      rw [joinSep_cons₂, List.append_assoc, List.cons_append,
        splitChar_append_cons (h t (by simp)),
        ih (by simp) (fun tok htok => h tok (List.mem_cons_of_mem _ htok))]
      rfl

theorem range_map_getD {α : Type} (l : List α) (d : α) :
    (List.range l.length).map (fun j => l.getD j d) = l := by
  apply List.ext_getElem
  · simp
  · intro i h1 h2
    simp [List.getD_eq_getElem?_getD, List.getElem?_eq_getElem h2]

theorem map_getD_lt {α β : Type} (f : α → β) (l : List α) (d : α) (d' : β)
    (j : Nat) (hj : j < l.length) :
    (l.map f).getD j d' = f (l.getD j d) := by
  simp [List.getD_eq_getElem?_getD, List.getElem?_eq_getElem hj,
    List.getElem?_eq_getElem (by simpa using hj : j < (l.map f).length)]

/-- C9 amended: for a table with at least one row and one column whose
column labels and rendered cells are non-empty and free of the CSV
delimiter/newline, and whose columns re-infer to the original cells
under `pd.read_csv` dtype inference, saving with
`save_data_to_csv` and re-reading with `load_data` reproduces exactly
the same rows and column order. -/
theorem c9_amended_roundtrip (t : Table) (path : String)
    (hcols : t.cols ≠ [])
    (hrows : t.rows ≠ [])
    (hrect : ∀ r ∈ t.rows, r.length = t.cols.length)
    (hcolsclean : ∀ s ∈ t.cols, s.data ≠ [] ∧ ',' ∉ s.data ∧ '\n' ∉ s.data)
    (hcellclean : ∀ r ∈ t.rows, ∀ v ∈ r,
      (renderCell v).data ≠ [] ∧ ',' ∉ (renderCell v).data ∧ '\n' ∉ (renderCell v).data)
    (hinfer : ∀ j, j < t.cols.length →
      inferColumn (t.rows.map (fun r => renderCell (r.getD j Val.vNull))) =
        t.rows.map (fun r => r.getD j Val.vNull)) :
    load_data path (save_data_to_csv t) = .ok t := by
  have hcontent : (save_data_to_csv t).data =
      joinSep '\n' ((joinSep ',' (t.cols.map String.data)) ::
        t.rows.map (fun r => joinSep ',' (r.map (fun v => (renderCell v).data)))) ++ ['\n'] := rfl
  set headerLine := joinSep ',' (t.cols.map String.data) with hheader
  set dataLines := t.rows.map (fun r => joinSep ',' (r.map (fun v => (renderCell v).data)))
    with hdata
  have hlineNoNl : ∀ line ∈ headerLine :: dataLines, '\n' ∉ line := by
    intro line hline
    rcases List.mem_cons.mp hline with h1 | h1
    · subst h1
      apply not_mem_joinSep (by decide)
      intro tok htok
      rcases List.mem_map.mp htok with ⟨s, hs, rfl⟩
      exact (hcolsclean s hs).2.2
    · rw [hdata] at h1
      rcases List.mem_map.mp h1 with ⟨r, hr, rfl⟩
      apply not_mem_joinSep (by decide)
      intro tok htok
      rcases List.mem_map.mp htok with ⟨v, hv, rfl⟩
      exact (hcellclean r hr v hv).2.2
  have hlineNe : ∀ line ∈ headerLine :: dataLines, line ≠ [] := by
    intro line hline
    rcases List.mem_cons.mp hline with h1 | h1
    · subst h1
      apply joinSep_ne_nil (by simpa using hcols)
      intro tok htok
      rcases List.mem_map.mp htok with ⟨s, hs, rfl⟩
      exact (hcolsclean s hs).1
    · rw [hdata] at h1
      rcases List.mem_map.mp h1 with ⟨r, hr, rfl⟩
      have hrne : r ≠ [] := by
        intro h0
        apply hcols
        have hlen := hrect r hr
        rw [h0] at hlen
        exact List.length_eq_zero.mp hlen.symm
      apply joinSep_ne_nil (by simpa using hrne)
      intro tok htok
      rcases List.mem_map.mp htok with ⟨v, hv, rfl⟩
      exact (hcellclean r hr v hv).1
  have hlines : (splitChar '\n' (save_data_to_csv t).data).filter (fun l => !l.isEmpty) =
      headerLine :: dataLines := by
    rw [hcontent, splitChar_joinSep_term (by simp) hlineNoNl, List.filter_append]
    have h2 : ([([] : List Char)]).filter (fun l => !l.isEmpty) = [] := rfl
    rw [h2, List.append_nil]
    apply List.filter_eq_self.mpr
    intro line hline
    simpa using hlineNe line hline
  have hcolsrec : (splitChar ',' headerLine).map String.mk = t.cols := by
    rw [hheader, splitChar_joinSep (by simpa using hcols)
      (fun tok htok => by
        rcases List.mem_map.mp htok with ⟨s, hs, rfl⟩
        exact (hcolsclean s hs).2.1)]
    rw [List.map_map]
    simp [Function.comp_def, stringMkData]
  have hraw : dataLines.map (fun l => (splitChar ',' l).map String.mk) =
      t.rows.map (fun r => r.map renderCell) := by
    rw [hdata, List.map_map]
    apply List.map_congr_left
    intro r hr
    simp only [Function.comp]
    have hrne : r ≠ [] := by
      intro h0
      apply hcols
      have hlen := hrect r hr
      rw [h0] at hlen
      exact List.length_eq_zero.mp hlen.symm
    rw [splitChar_joinSep (by simpa using hrne)
      (fun tok htok => by
        rcases List.mem_map.mp htok with ⟨v, hv, rfl⟩
        exact (hcellclean r hr v hv).2.1)]
    rw [List.map_map]
    simp [Function.comp, stringMkData]
  have hnoerr : (t.rows.map (fun r => r.map renderCell)).any
      (fun r => decide (((splitChar ',' headerLine).map String.mk).length < r.length)) = false := by
    rw [hcolsrec]
    apply List.any_eq_false.mpr
    intro rr hrr
    rcases List.mem_map.mp hrr with ⟨r, hr, rfl⟩
    simp [hrect r hr]
  have hpadded : (t.rows.map (fun r => r.map renderCell)).map
      (fun rr => (List.range t.cols.length).map (fun j => rr.getD j "")) =
      t.rows.map (fun r => r.map renderCell) := by
    have hstep : ∀ rr ∈ t.rows.map (fun r => r.map renderCell),
        (List.range t.cols.length).map (fun j => rr.getD j "") = id rr := by
      intro rr hrr
      rcases List.mem_map.mp hrr with ⟨r, hr, rfl⟩
      have hlen : (r.map renderCell).length = t.cols.length := by
        rw [List.length_map]
        exact hrect r hr
      rw [← hlen]
      exact range_map_getD _ _
    rw [List.map_congr_left hstep, List.map_id]
  have hcolVals : (List.range t.cols.length).map
      (fun j => inferColumn ((t.rows.map (fun r => r.map renderCell)).map (fun rr => rr.getD j ""))) =
      (List.range t.cols.length).map (fun j => t.rows.map (fun r => r.getD j Val.vNull)) := by
    apply List.map_congr_left
    intro j hj
    have hj' : j < t.cols.length := List.mem_range.mp hj
    have hinner : (t.rows.map (fun r => r.map renderCell)).map (fun rr => rr.getD j "") =
        t.rows.map (fun r => renderCell (r.getD j Val.vNull)) := by
      rw [List.map_map]
      apply List.map_congr_left
      intro r hr
      simp only [Function.comp]
      exact map_getD_lt renderCell r Val.vNull "" j (by rw [hrect r hr]; exact hj')
    rw [hinner, hinfer j hj']
  have hrowsEq : (List.range t.rows.length).map
      (fun i => (List.range t.cols.length).map
        (fun j => (t.rows.map (fun r => r.getD j Val.vNull)).getD i Val.vNull)) = t.rows := by
    have hstep : ∀ i ∈ List.range t.rows.length,
        (List.range t.cols.length).map
          (fun j => (t.rows.map (fun r => r.getD j Val.vNull)).getD i Val.vNull) =
        t.rows.getD i [] := by
      intro i hi
      have hi' : i < t.rows.length := List.mem_range.mp hi
      have hrowmem : t.rows.getD i [] ∈ t.rows := by
        rw [List.getD_eq_getElem?_getD, List.getElem?_eq_getElem hi']
        simp only [Option.getD_some]
        exact List.getElem_mem hi'
      have hlen : (t.rows.getD i []).length = t.cols.length := hrect _ hrowmem
      have h1 : (List.range t.cols.length).map
          (fun j => (t.rows.map (fun r => r.getD j Val.vNull)).getD i Val.vNull) =
          (List.range t.cols.length).map (fun j => (t.rows.getD i []).getD j Val.vNull) := by
        apply List.map_congr_left
        intro j _
        exact map_getD_lt (fun r => r.getD j Val.vNull) t.rows [] Val.vNull i hi'
      rw [h1, ← hlen]
      exact range_map_getD _ _
    rw [List.map_congr_left hstep]
    exact range_map_getD t.rows []
  simp only [load_data, hlines]
  rw [hraw, hnoerr]
  rw [hcolsrec, hpadded, hcolVals]
  simp only [List.map_map, Function.comp_def, List.length_map, Bool.false_eq_true, if_false]
  rw [hrowsEq]
  have hempty : t.rows.isEmpty = false := by
    cases hr : t.rows with
    | nil => exact absurd hr hrows
    | cons a l => rfl
  rw [hempty]
  rfl

/-- C9 counterexample: saving a zero-row normalized table writes the
header line only, and re-reading it with `load_data` raises
`ValueError "<path> is empty."` instead of reproducing the table. -/
theorem c9_counterexample :
    load_data "data/raw/cpi_data.csv" (save_data_to_csv ⟨["date", "value"], []⟩) =
      .error (.valueError "data/raw/cpi_data.csv is empty.") := rfl

/-- A normalized one-row FRED-style table whose cells survive CSV
re-inference. -/
def rtSample : Table := ⟨["date", "value"], [[.vStr "2020-01-01", .vFloat 3018 1]]⟩

theorem c9_amended_roundtrip_witness :
    load_data "data/raw/pce_data.csv" (save_data_to_csv rtSample) = .ok rtSample :=
  c9_amended_roundtrip rtSample "data/raw/pce_data.csv"
    (by decide) (by decide) (by decide) (by decide) (by decide) (by decide)
